import Mathlib

/-!
Shallow embedding of `trivy-plugin-push-referrer` (`src/main.go`).

The program reads an SBOM byte stream, resolves the target image reference
from the SBOM (CycloneDX purl or SPDX external reference), builds an OCI
referrer manifest whose single layer holds the verbatim SBOM bytes, derives
the digest-addressed tag, and pushes it.

External collaborators (trivy's purl parser and SBOM codec,
go-containerregistry's reference parser, digesting and registry client) are
modelled as an explicit record of functions (`Env`); the repository's own
functions (`repoFromPurl`, `repoFromSpdx`, `referrer.Image`, `referrer.Tag`,
`referrerFromSBOM`, `putReferrer`) are translated statement by statement.
Go errors are modelled as their message strings (`Except String`); the
spec's error labels map to the code's messages as follows:
`MissingQualifier` is the message "repository_url not found" and both
`RootPackageNotFound` and `PackageManagerRefNotFound` are produced as the
single message "not found: repo uri".
-/

namespace PushReferrer

/-- Byte sequences (Go `[]byte`), as lists of byte values. -/
abbrev Bytes := List Nat

/-- go-containerregistry `v1.Descriptor`, restricted to the fields this
program reads and writes: media type, digest and size. -/
structure Descriptor where
  mediaType : String
  digest : String
  size : Int
  deriving DecidableEq, Repr

/-- go-containerregistry `name.Digest`: a digest reference with its
registry, repository and digest components (`RegistryStr`, `RepositoryStr`
and the digest suffix). -/
structure NameDigest where
  registryStr : String
  repositoryStr : String
  digestStr : String
  deriving DecidableEq, Repr

/-- An image layer as produced by `static.NewLayer`: raw content plus a
media type. -/
structure Layer where
  content : Bytes
  mediaType : String
  deriving DecidableEq, Repr

/-- The manifest-level view of a go-containerregistry `v1.Image` that the
program manipulates through `mutate`: top-level media type, config media
type, layers, annotations (a string map, modelled as a key-unique
association list) and the optional subject descriptor. -/
structure Image where
  mediaType : String
  configMediaType : String
  layers : List Layer
  annotations : List (String × String)
  subject : Option Descriptor
  deriving DecidableEq, Repr

/-- Source constant `annotationKeyDescription` (`src/main.go:26`). -/
def annotationKeyDescription : String := "org.opencontainers.artifact.description"

/-- Source constant `mediaKeyCycloneDX` (`src/main.go:30`). -/
def mediaKeyCycloneDX : String := "application/vnd.cyclonedx+json"

/-- Source constant `mediaKeySPDX` (`src/main.go:31`). -/
def mediaKeySPDX : String := "application/spdx+json"

/-- go-containerregistry `types.OCIUncompressedLayer`. -/
def ociUncompressedLayer : String := "application/vnd.oci.image.layer.v1.tar"

/-- go-containerregistry `empty.Image`: no layers, no annotations, no
subject; its initial media types are Docker defaults, overwritten by the
program before use. -/
def emptyImage : Image :=
  { mediaType := "application/vnd.docker.distribution.manifest.v2+json"
    configMediaType := "application/vnd.docker.container.image.v1+json"
    layers := []
    annotations := []
    subject := none }

/-- `static.NewLayer(b, mt)`: a layer whose content is exactly `b` with
media type `mt`; it performs no validation and no transformation. -/
def staticNewLayer (b : Bytes) (mt : String) : Layer :=
  { content := b, mediaType := mt }

/-- `mutate.Append(img, Addendum{Layer: l})`: appends the layer. For a
static (in-memory) layer the library's digest computation cannot fail and
no validation inspects the content, so the call always succeeds; the
`error` result in the Go signature is kept as `Except`. -/
def mutateAppend (img : Image) (l : Layer) : Except String Image :=
  .ok { img with layers := img.layers ++ [l] }

/-- `mutate.MediaType`: sets the manifest's top-level media type. -/
def mutateMediaType (img : Image) (mt : String) : Image :=
  { img with mediaType := mt }

/-- `mutate.ConfigMediaType`: sets the config descriptor's media type. -/
def mutateConfigMediaType (img : Image) (mt : String) : Image :=
  { img with configMediaType := mt }

/-- Insertion into a Go `map[string]string` modelled as a key-unique
association list: the key's previous binding, if any, is replaced. -/
def annsInsert (m : List (String × String)) (k v : String) : List (String × String) :=
  (m.filter (fun kv => kv.1 ≠ k)) ++ [(k, v)]

/-- `mutate.Annotations(img, anns)`: merges `anns` into the manifest's
existing annotations, new values overriding old ones. -/
def mutateAnnotations (img : Image) (anns : List (String × String)) : Image :=
  { img with annotations := anns.foldl (fun m kv => annsInsert m kv.1 kv.2) img.annotations }

/-- `mutate.Subject(img, d)`: sets the manifest's subject descriptor. -/
def mutateSubject (img : Image) (d : Descriptor) : Image :=
  { img with subject := some d }

/-- A parsed package-URL (trivy `purl.FromString` result), restricted to
the fields the program reads: the version and the qualifier list. -/
structure Purl where
  version : String
  qualifiers : List (String × String)
  deriving DecidableEq, Repr

/-- `p.Qualifiers.Map()[k]`: building a Go map from the qualifier list
(later keys overriding earlier ones) and indexing it, with the map's zero
value `""` when the key is absent. -/
def qualifiersMapGet (qs : List (String × String)) (k : String) : String :=
  qs.foldl (fun acc q => if q.1 = k then q.2 else acc) ""

/-- SPDX `PackageExternalReference2_2`, restricted to category and
locator. -/
structure PackageExternalReference where
  Category : String
  Locator : String
  deriving DecidableEq, Repr

/-- SPDX `Package2_2`, restricted to the fields the program reads. -/
structure SpdxPackage where
  PackageName : String
  PackageExternalReferences : List PackageExternalReference
  deriving DecidableEq, Repr

/-- SPDX `CreationInfo2_2`, restricted to the document name. -/
structure SpdxCreationInfo where
  DocumentName : String
  deriving DecidableEq, Repr

/-- SPDX `Document2_2`, restricted to creation info and packages. In
tools-golang v0.2.x (the version with `CreationInfo.DocumentName`),
`Packages` is a Go `map[ElementID]*Package2_2`; ranging over it yields the
packages in a randomized, unspecified order. The list here models the
enumeration one run's `range` happens to produce, so no document order is
implied: a property of the program must hold under every permutation of
this list, and order-dependent facts hold only relative to a given
enumeration. (`PackageExternalReferences` inside a package is a Go slice
and genuinely ordered.) -/
structure SpdxDocument where
  CreationInfo : SpdxCreationInfo
  Packages : List SpdxPackage
  deriving DecidableEq, Repr

/-- CycloneDX component, restricted to the `bom-ref` field. -/
structure CdxComponent where
  BOMRef : String
  deriving DecidableEq, Repr

/-- CycloneDX metadata, restricted to the primary component. -/
structure CdxMetadata where
  Component : CdxComponent
  deriving DecidableEq, Repr

/-- CycloneDX BOM, restricted to the metadata. -/
structure CdxBOM where
  Metadata : CdxMetadata
  deriving DecidableEq, Repr

/-- trivy `sbom.Format`: the two formats the program handles plus all
others, which carry their format string for the error message. -/
inductive SbomFormat where
  | formatCycloneDXJSON
  | formatSPDXJSON
  | formatOtherKind (s : String)
  deriving DecidableEq, Repr

/-- The format's underlying string (`%s` in the Go error message). -/
def SbomFormat.str : SbomFormat → String
  | .formatCycloneDXJSON => "cyclonedx-json"
  | .formatSPDXJSON => "spdx-json"
  | .formatOtherKind s => s

/-- trivy `sbom.Decode` result: holds both dialect views; the program only
reads the one matching the detected format. -/
structure DecodedSBOM where
  CycloneDX : CdxBOM
  SPDX : SpdxDocument
  deriving DecidableEq, Repr

/-- The external collaborators, as explicit functions: trivy's purl parser,
go-containerregistry's reference parser (`name.NewDigest`), trivy's SBOM
format detection and decoding, the registry client (`remote.Head`,
`remote.Write`) and the image digest computation (`img.Digest()`, the
content digest of the serialized manifest). -/
structure Env where
  purlFromString : String → Except String Purl
  newDigest : String → Except String NameDigest
  detectFormat : Bytes → Except String SbomFormat
  decode : Bytes → SbomFormat → Except String DecodedSBOM
  remoteHead : NameDigest → Except String Descriptor
  imgDigest : Image → Except String String
  remoteWrite : NameDigest → Image → Except String Unit

/-- The `referrer` struct (`src/main.go:34`). -/
structure referrer where
  annotations : List (String × String)
  mediaType : String
  bytes : Bytes
  targetRepo : NameDigest
  targetDesc : Descriptor
  deriving DecidableEq, Repr

/-- `(*referrer).Image` (`src/main.go:42`): append the single static layer
to the empty image, then set top-level media type from the target
descriptor, config media type from the dialect, annotations and subject. -/
def referrer.Image (r : referrer) : Except String Image :=
  match mutateAppend emptyImage (staticNewLayer r.bytes ociUncompressedLayer) with
  | .error e => .error e
  | .ok img =>
    .ok (mutateSubject
          (mutateAnnotations
            (mutateConfigMediaType (mutateMediaType img r.targetDesc.mediaType) r.mediaType)
            r.annotations)
          r.targetDesc)

/-- `(*referrer).Tag` (`src/main.go:59`): compute the manifest digest and
parse `registry/repository@digest` built from the target repo's
components. -/
def referrer.Tag (env : Env) (r : referrer) (img : PushReferrer.Image) : Except String NameDigest :=
  match env.imgDigest img with
  | .error e => .error e
  | .ok digest =>
    env.newDigest (r.targetRepo.registryStr ++ "/" ++ r.targetRepo.repositoryStr ++ "@" ++ digest)

/-- `repoFromPurl` (`src/main.go:74`): parse the purl, read the
`repository_url` qualifier from its qualifier map (empty string when
absent), fail when it is empty, otherwise parse `url@version`. -/
def repoFromPurl (env : Env) (purlStr : String) : Except String NameDigest :=
  match env.purlFromString purlStr with
  | .error e => .error e
  | .ok p =>
    let url := qualifiersMapGet p.qualifiers "repository_url"
    if url = "" then
      .error "repository_url not found"
    else
      env.newDigest (url ++ "@" ++ p.version)

/-- The inner loop of `repoFromSpdx` (`src/main.go:96`): first external
reference whose category is `PACKAGE-MANAGER`, if any. -/
def findPM : List PackageExternalReference → Option PackageExternalReference
  | [] => none
  | r :: rs => if r.Category = "PACKAGE-MANAGER" then some r else findPM rs

/-- The nested loops of `repoFromSpdx` (`src/main.go:94`): walk the
packages in the enumeration order the map's `range` produced; on a package
whose name equals the document name, return `repoFromPurl` of its first
`PACKAGE-MANAGER` reference's locator if it has one, otherwise keep
scanning the remaining packages; error after the loop. -/
def repoFromSpdxLoop (env : Env) (docName : String) : List SpdxPackage → Except String NameDigest
  | [] => .error "not found: repo uri"
  | pkg :: rest =>
    if pkg.PackageName = docName then
      match findPM pkg.PackageExternalReferences with
      | some ref => repoFromPurl env ref.Locator
      | none => repoFromSpdxLoop env docName rest
    else
      repoFromSpdxLoop env docName rest

/-- `repoFromSpdx` (`src/main.go:93`). -/
def repoFromSpdx (env : Env) (doc : SpdxDocument) : Except String NameDigest :=
  repoFromSpdxLoop env doc.CreationInfo.DocumentName doc.Packages

/-- `referrerFromSBOM` (`src/main.go:107`): read all bytes (`readResult`
is the `io.ReadAll` outcome), detect the format, decode, resolve the
target reference per dialect with the dialect's fixed annotations and
media type, fetch the target descriptor with `remote.Head`, and assemble
the `referrer` value. -/
def referrerFromSBOM (env : Env) (readResult : Except String Bytes) : Except String referrer :=
  match readResult with
  | .error e => .error e
  | .ok b =>
    match env.detectFormat b with
    | .error e => .error e
    | .ok format =>
      match env.decode b format with
      | .error e => .error e
      | .ok decoded =>
        match format with
        | .formatCycloneDXJSON =>
          match repoFromPurl env decoded.CycloneDX.Metadata.Component.BOMRef with
          | .error e => .error e
          | .ok repo =>
            match env.remoteHead repo with
            | .error e => .error e
            | .ok targetDesc =>
              .ok { annotations := [(annotationKeyDescription, "CycloneDX JSON SBOM")]
                    mediaType := mediaKeyCycloneDX, bytes := b
                    targetRepo := repo, targetDesc := targetDesc }
        | .formatSPDXJSON =>
          match repoFromSpdx env decoded.SPDX with
          | .error e => .error e
          | .ok repo =>
            match env.remoteHead repo with
            | .error e => .error e
            | .ok targetDesc =>
              .ok { annotations := [(annotationKeyDescription, "SPDX JSON SBOM")]
                    mediaType := mediaKeySPDX, bytes := b
                    targetRepo := repo, targetDesc := targetDesc }
        | .formatOtherKind s => .error ("unsupported format: " ++ s)

/-- `putReferrer` (`src/main.go:165`): the orchestrator. The second
component of the result records every invocation of the external push
(`remote.Write`), in order, so that "the push is never invoked" is
expressible as that list being empty. -/
def putReferrer (env : Env) (readResult : Except String Bytes) :
    Except String Unit × List (NameDigest × Image) :=
  match referrerFromSBOM env readResult with
  | .error e => (.error e, [])
  | .ok ref =>
    match referrer.Image ref with
    | .error e => (.error e, [])
    | .ok img =>
      match referrer.Tag env ref img with
      | .error e => (.error e, [])
      | .ok tag =>
        match env.remoteWrite tag img with
        | .error e => (.error e, [(tag, img)])
        | .ok _ => (.ok (), [(tag, img)])

/-! ## Helper lemmas -/

/-- Folding the qualifier-map construction over keys that never match
leaves the accumulator unchanged. -/
lemma foldl_qual_skip (k : String) (qs : List (String × String)) (acc : String)
    (h : ∀ q ∈ qs, q.1 ≠ k) :
    qs.foldl (fun acc q => if q.1 = k then q.2 else acc) acc = acc := by
  induction qs generalizing acc with
  | nil => rfl
  | cons q rest ih =>
    simp only [List.foldl_cons]
    rw [if_neg (h q (List.mem_cons_self q rest))]
    exact ih acc (fun r hr => h r (List.mem_cons_of_mem q hr))

/-- A key that appears in no qualifier reads as the map's zero value. -/
lemma qualifiersMapGet_absent (qs : List (String × String)) (k : String)
    (h : ∀ q ∈ qs, q.1 ≠ k) : qualifiersMapGet qs k = "" :=
  foldl_qual_skip k qs "" h

/-- The inner loop of `repoFromSpdx` picks exactly the head of the list of
`PACKAGE-MANAGER` references. -/
lemma findPM_eq_head_filter (rs : List PackageExternalReference) :
    findPM rs = (rs.filter (fun r => decide (r.Category = "PACKAGE-MANAGER"))).head? := by
  induction rs with
  | nil => rfl
  | cons r rest ih =>
    by_cases h : r.Category = "PACKAGE-MANAGER"
    · simp [findPM, List.filter_cons, h]
    · simp [findPM, List.filter_cons, h, ih]

/-- When no package name matches, the package loop falls through to the
single error. -/
lemma repoFromSpdxLoop_of_filter_nil (env : Env) (docName : String)
    (pkgs : List SpdxPackage)
    (h : pkgs.filter (fun q => decide (q.PackageName = docName)) = []) :
    repoFromSpdxLoop env docName pkgs = .error "not found: repo uri" := by
  induction pkgs with
  | nil => rfl
  | cons pkg rest ih =>
    by_cases hn : pkg.PackageName = docName
    · simp [List.filter_cons, hn] at h
    · simp only [repoFromSpdxLoop, if_neg hn]
      exact ih (by simpa [List.filter_cons, hn] using h)

/-- When exactly one package name matches and that package's first
`PACKAGE-MANAGER` reference is `ref`, the loop resolves `ref.Locator`. -/
lemma repoFromSpdxLoop_of_filter_singleton (env : Env) (docName : String)
    (pkgs : List SpdxPackage) (p : SpdxPackage) (ref : PackageExternalReference)
    (h : pkgs.filter (fun q => decide (q.PackageName = docName)) = [p])
    (h2 : findPM p.PackageExternalReferences = some ref) :
    repoFromSpdxLoop env docName pkgs = repoFromPurl env ref.Locator := by
  induction pkgs with
  | nil => simp at h
  | cons pkg rest ih =>
    by_cases hn : pkg.PackageName = docName
    · have hconj : pkg = p ∧ rest.filter (fun q => decide (q.PackageName = docName)) = [] := by
        simpa [List.filter_cons, hn] using h
      obtain ⟨hpq, _⟩ := hconj
      subst hpq
      simp only [repoFromSpdxLoop, if_pos hn, h2]
    · simp only [repoFromSpdxLoop, if_neg hn]
      exact ih (by simpa [List.filter_cons, hn] using h)

/-! ## Concrete data for witnesses -/

/-- A parsed purl carrying a repository_url qualifier and a digest
version. -/
def pW : Purl :=
  { version := "sha256:aaaa"
    qualifiers := [("repository_url", "registry.example.com/org/myimage")] }

/-- A target descriptor as an external `remote.Head` would return it. -/
def descW : Descriptor :=
  { mediaType := "application/vnd.oci.image.manifest.v1+json"
    digest := "sha256:aaaa", size := 123 }

/-- A PACKAGE-MANAGER external reference. -/
def refW : PackageExternalReference :=
  { Category := "PACKAGE-MANAGER", Locator := "pkg:oci/myimage" }

/-- A root package whose name matches the document name. -/
def pkgW : SpdxPackage :=
  { PackageName := "myimage", PackageExternalReferences := [refW] }

/-- An SPDX document with exactly one matching root package. -/
def spdxW : SpdxDocument :=
  { CreationInfo := { DocumentName := "myimage" }, Packages := [pkgW] }

/-- A decoded SBOM holding both dialect views. -/
def decW : DecodedSBOM :=
  { CycloneDX := { Metadata := { Component := { BOMRef := "pkg:oci/myimage" } } }
    SPDX := spdxW }

/-- A concrete environment whose collaborators all succeed. -/
def envW : Env :=
  { purlFromString := fun _ => .ok pW
    newDigest := fun s =>
      .ok { registryStr := "registry.example.com", repositoryStr := "org/myimage", digestStr := s }
    detectFormat := fun _ => .ok .formatCycloneDXJSON
    decode := fun _ _ => .ok decW
    remoteHead := fun _ => .ok descW
    imgDigest := fun _ => .ok "sha256:1111"
    remoteWrite := fun _ _ => .ok () }

/-! ## Claims -/

/-- C1: whenever the purl string parses to a purl whose qualifier map gives
a non-empty `repository_url`, `repoFromPurl` returns exactly the result of
parsing `repository_url@version`; when the qualifier is empty, or absent
from the qualifier list entirely, it fails with the `MissingQualifier`
error, message "repository_url not found". -/
theorem repoFromPurl_spec (env : Env) (s : String) (p : Purl)
    (hp : env.purlFromString s = .ok p) :
    (qualifiersMapGet p.qualifiers "repository_url" ≠ "" →
      repoFromPurl env s =
        env.newDigest (qualifiersMapGet p.qualifiers "repository_url" ++ "@" ++ p.version)) ∧
    (qualifiersMapGet p.qualifiers "repository_url" = "" →
      repoFromPurl env s = .error "repository_url not found") ∧
    ((∀ q ∈ p.qualifiers, q.1 ≠ "repository_url") →
      repoFromPurl env s = .error "repository_url not found") := by
  have hbase : repoFromPurl env s =
      (if qualifiersMapGet p.qualifiers "repository_url" = "" then
        .error "repository_url not found"
      else
        env.newDigest (qualifiersMapGet p.qualifiers "repository_url" ++ "@" ++ p.version)) := by
    unfold repoFromPurl
    rw [hp]
  refine ⟨fun hne => ?_, fun he => ?_, fun habs => ?_⟩
  · rw [hbase, if_neg hne]
  · rw [hbase, if_pos he]
  · rw [hbase, if_pos (qualifiersMapGet_absent p.qualifiers "repository_url" habs)]

/-- C1 witness: concrete evaluation on a purl with the qualifier present. -/
theorem repoFromPurl_spec_witness :
    repoFromPurl envW "pkg:oci/myimage" =
      envW.newDigest (qualifiersMapGet pW.qualifiers "repository_url" ++ "@" ++ pW.version) :=
  (repoFromPurl_spec envW "pkg:oci/myimage" pW rfl).1 (by decide)

/-- C2: when exactly one package name equals the SPDX document name and
that package has exactly one `PACKAGE-MANAGER` external reference with
locator `L`, `repoFromSpdx` returns exactly `repoFromPurl` on `L`; when no
package name equals the document name, it fails with the
`RootPackageNotFound` error, message "not found: repo uri". -/
theorem repoFromSpdx_root_spec (env : Env) (doc : SpdxDocument) :
    (∀ p ref,
      doc.Packages.filter
        (fun q => decide (q.PackageName = doc.CreationInfo.DocumentName)) = [p] →
      p.PackageExternalReferences.filter
        (fun r => decide (r.Category = "PACKAGE-MANAGER")) = [ref] →
      repoFromSpdx env doc = repoFromPurl env ref.Locator) ∧
    (doc.Packages.filter
        (fun q => decide (q.PackageName = doc.CreationInfo.DocumentName)) = [] →
      repoFromSpdx env doc = .error "not found: repo uri") := by
  constructor
  · intro p ref h1 h2
    have hpm : findPM p.PackageExternalReferences = some ref := by
      rw [findPM_eq_head_filter, h2]
      rfl
    exact repoFromSpdxLoop_of_filter_singleton env _ _ p ref h1 hpm
  · intro h
    exact repoFromSpdxLoop_of_filter_nil env _ _ h

/-- C2 witness: concrete evaluation on a document with one matching root
package carrying one PACKAGE-MANAGER reference. -/
theorem repoFromSpdx_root_spec_witness :
    repoFromSpdx envW spdxW = repoFromPurl envW refW.Locator :=
  (repoFromSpdx_root_spec envW spdxW).1 pkgW refW (by decide) (by decide)

/-- The builder's output, in closed form: one uncompressed layer with the
referrer's bytes, media types and annotations as set by the `mutate`
chain, subject set to the target descriptor. -/
lemma referrer_Image_eq (r : referrer) :
    referrer.Image r = .ok
      { mediaType := r.targetDesc.mediaType
        configMediaType := r.mediaType
        layers := [staticNewLayer r.bytes ociUncompressedLayer]
        annotations := r.annotations.foldl (fun m kv => annsInsert m kv.1 kv.2) []
        subject := some r.targetDesc } := rfl

/-- Inversion of a successful `referrerFromSBOM` run: the stored bytes are
the input bytes, the target descriptor is exactly the `remote.Head` result
for the resolved reference, and the annotations and config media type are
the fixed constants of the detected dialect. -/
lemma referrerFromSBOM_ok_inv (env : Env) (b : Bytes) (r : referrer)
    (h : referrerFromSBOM env (.ok b) = .ok r) :
    r.bytes = b ∧ env.remoteHead r.targetRepo = .ok r.targetDesc ∧
    ((env.detectFormat b = .ok .formatCycloneDXJSON ∧
      r.annotations = [(annotationKeyDescription, "CycloneDX JSON SBOM")] ∧
      r.mediaType = mediaKeyCycloneDX) ∨
     (env.detectFormat b = .ok .formatSPDXJSON ∧
      r.annotations = [(annotationKeyDescription, "SPDX JSON SBOM")] ∧
      r.mediaType = mediaKeySPDX)) := by
  simp only [referrerFromSBOM] at h
  repeat' split at h
  all_goals try exact Except.noConfusion h
  · rw [Except.ok.injEq] at h
    subst h
    exact ⟨rfl, by assumption, Or.inl ⟨by assumption, rfl, rfl⟩⟩
  · rw [Except.ok.injEq] at h
    subst h
    exact ⟨rfl, by assumption, Or.inr ⟨by assumption, rfl, rfl⟩⟩

/-- C3: for a referrer assembled from an SBOM, the built manifest has
top-level media type equal to the target descriptor's media type, config
media type equal to the dialect media type, exactly one layer of the
uncompressed OCI layer type, the description annotation mapped to the
dialect's description, and the subject equal to the descriptor returned by
the external lookup, verbatim. -/
theorem referrer_manifest_shape_spec (env : Env) (b : Bytes) (r : referrer)
    (hr : referrerFromSBOM env (.ok b) = .ok r) :
    ∃ img, referrer.Image r = .ok img ∧
      img.mediaType = r.targetDesc.mediaType ∧
      img.configMediaType = r.mediaType ∧
      img.layers = [staticNewLayer r.bytes ociUncompressedLayer] ∧
      (env.detectFormat b = .ok .formatCycloneDXJSON →
        img.annotations = [(annotationKeyDescription, "CycloneDX JSON SBOM")] ∧
        img.configMediaType = mediaKeyCycloneDX) ∧
      (env.detectFormat b = .ok .formatSPDXJSON →
        img.annotations = [(annotationKeyDescription, "SPDX JSON SBOM")] ∧
        img.configMediaType = mediaKeySPDX) ∧
      img.subject = some r.targetDesc ∧
      env.remoteHead r.targetRepo = .ok r.targetDesc := by
  obtain ⟨hb, hhd, hforms⟩ := referrerFromSBOM_ok_inv env b r hr
  refine ⟨_, referrer_Image_eq r, rfl, rfl, rfl, ?_, ?_, rfl, hhd⟩
  · intro hdf
    rcases hforms with ⟨_, ha, hm⟩ | ⟨hdf2, _, _⟩
    · exact ⟨by simp [ha, annsInsert], hm⟩
    · rw [hdf] at hdf2
      exact absurd hdf2 (by simp)
  · intro hdf
    rcases hforms with ⟨hdf2, _, _⟩ | ⟨_, ha, hm⟩
    · rw [hdf] at hdf2
      exact absurd hdf2 (by simp)
    · exact ⟨by simp [ha, annsInsert], hm⟩

/-- The resolved reference in the concrete environment. -/
def ndW : NameDigest :=
  { registryStr := "registry.example.com", repositoryStr := "org/myimage"
    digestStr := "registry.example.com/org/myimage@sha256:aaaa" }

/-- The referrer value `referrerFromSBOM` produces in the concrete
environment on input bytes `[7]`. -/
def rW : referrer :=
  { annotations := [(annotationKeyDescription, "CycloneDX JSON SBOM")]
    mediaType := mediaKeyCycloneDX, bytes := [7]
    targetRepo := ndW, targetDesc := descW }

/-- C3 witness: concrete evaluation of the built manifest's shape. -/
theorem referrer_manifest_shape_spec_witness :
    ∃ img, referrer.Image rW = .ok img ∧ img.subject = some descW ∧
      img.annotations = [(annotationKeyDescription, "CycloneDX JSON SBOM")] := by
  obtain ⟨img, h1, _, _, _, hc, _, hs, _⟩ :=
    referrer_manifest_shape_spec envW [7] rW rfl
  exact ⟨img, h1, hs, (hc rfl).1⟩

/-- C4: the single layer of the built manifest carries exactly the bytes
read from the input, unchanged. -/
theorem layer_roundtrip_spec (env : Env) (b : Bytes) (r : referrer) (img : Image)
    (hr : referrerFromSBOM env (.ok b) = .ok r)
    (hi : referrer.Image r = .ok img) :
    r.bytes = b ∧ img.layers.map Layer.content = [b] := by
  obtain ⟨hb, -, -⟩ := referrerFromSBOM_ok_inv env b r hr
  rw [referrer_Image_eq r, Except.ok.injEq] at hi
  subst hi
  exact ⟨hb, by simp [staticNewLayer, hb]⟩

/-- The image the builder produces from `rW`. -/
def imgW : Image :=
  { mediaType := descW.mediaType
    configMediaType := mediaKeyCycloneDX
    layers := [staticNewLayer [7] ociUncompressedLayer]
    annotations := [(annotationKeyDescription, "CycloneDX JSON SBOM")]
    subject := some descW }

/-- C4 witness: concrete evaluation of the round-trip. -/
theorem layer_roundtrip_spec_witness :
    rW.bytes = [7] ∧ imgW.layers.map Layer.content = [[7]] :=
  layer_roundtrip_spec envW [7] rW imgW rfl rfl

/-- C5: the derived tag is exactly the parse of
`registry/repository@digest` where registry and repository are the target
reference's own components and the digest is the content digest computed
from the exact manifest passed in. -/
theorem tag_composition_spec (env : Env) (r : referrer) (img : Image) (d : String)
    (hd : env.imgDigest img = .ok d) :
    referrer.Tag env r img =
      env.newDigest
        (r.targetRepo.registryStr ++ "/" ++ r.targetRepo.repositoryStr ++ "@" ++ d) := by
  unfold referrer.Tag
  rw [hd]

/-- C5 witness: concrete evaluation of the tag composition. -/
theorem tag_composition_spec_witness :
    referrer.Tag envW rW imgW =
      envW.newDigest
        (rW.targetRepo.registryStr ++ "/" ++ rW.targetRepo.repositoryStr ++ "@" ++ "sha256:1111") :=
  tag_composition_spec envW rW imgW "sha256:1111" rfl

/-- A matching package with no external references at all. -/
def pkgNoRef : SpdxPackage :=
  { PackageName := "doc", PackageExternalReferences := [] }

/-- A PACKAGE-MANAGER reference with locator "L2". -/
def refL2 : PackageExternalReference :=
  { Category := "PACKAGE-MANAGER", Locator := "L2" }

/-- A second matching package that does carry a PACKAGE-MANAGER
reference. -/
def pkgLater : SpdxPackage :=
  { PackageName := "doc", PackageExternalReferences := [refL2] }

/-- A document whose first matching package has no PACKAGE-MANAGER
reference while a later matching package has one. -/
def docTwo : SpdxDocument :=
  { CreationInfo := { DocumentName := "doc" }, Packages := [pkgNoRef, pkgLater] }

/-- The same document truncated to its first matching package. -/
def docFirstOnly : SpdxDocument :=
  { CreationInfo := { DocumentName := "doc" }, Packages := [pkgNoRef] }

/-- A document in which no package name matches the document name. -/
def docNoMatch : SpdxDocument :=
  { CreationInfo := { DocumentName := "doc" }
    Packages := [{ PackageName := "other", PackageExternalReferences := [refL2] }] }

/-- C6 counterexample: the first package matching the document name
(`pkgNoRef`, which has no PACKAGE-MANAGER reference) is not what resolution
uses — the document resolves through the later matching package `pkgLater`,
while the document truncated to the first matching package fails. So later
candidate packages are not ignored. -/
theorem repoFromSpdx_first_package_cex :
    repoFromSpdx envW docTwo = .ok ndW ∧
    docTwo.Packages.head? = some pkgNoRef ∧
    pkgNoRef.PackageName = docTwo.CreationInfo.DocumentName ∧
    pkgNoRef.PackageExternalReferences = [] ∧
    repoFromSpdx envW docFirstOnly = .error "not found: repo uri" :=
  ⟨rfl, rfl, rfl, rfl, rfl⟩

/-- A package qualifies for selection when its name matches the document
name and it has at least one PACKAGE-MANAGER reference. -/
def isCandidate (docName : String) (pkg : SpdxPackage) : Bool :=
  decide (pkg.PackageName = docName) && (findPM pkg.PackageExternalReferences).isSome

/-- The package loop resolves through the first package that matches the
document name and has a PACKAGE-MANAGER reference, skipping matching
packages without one. -/
lemma repoFromSpdxLoop_of_find (env : Env) (docName : String)
    (pkgs : List SpdxPackage) (p : SpdxPackage) (ref : PackageExternalReference)
    (h1 : pkgs.find? (isCandidate docName) = some p)
    (h2 : findPM p.PackageExternalReferences = some ref) :
    repoFromSpdxLoop env docName pkgs = repoFromPurl env ref.Locator := by
  induction pkgs with
  | nil => simp at h1
  | cons pkg rest ih =>
    by_cases hc : isCandidate docName pkg
    · rw [List.find?_cons_of_pos _ hc, Option.some.injEq] at h1
      subst h1
      have hname : pkg.PackageName = docName := by
        have := hc
        simp [isCandidate] at this
        exact this.1
      simp only [repoFromSpdxLoop, if_pos hname, h2]
    · rw [List.find?_cons_of_neg _ (by simpa using hc)] at h1
      by_cases hname : pkg.PackageName = docName
      · have hnone : findPM pkg.PackageExternalReferences = none := by
          rcases hfm : findPM pkg.PackageExternalReferences with _ | r2
          · rfl
          · exact absurd (by simp [isCandidate, hname, hfm]) hc
        simp only [repoFromSpdxLoop, if_pos hname, hnone]
        exact ih h1
      · simp only [repoFromSpdxLoop, if_neg hname]
        exact ih h1

/-- When no package both matches the document name and has a
PACKAGE-MANAGER reference, the loop returns the single error. -/
lemma repoFromSpdxLoop_of_find_none (env : Env) (docName : String)
    (pkgs : List SpdxPackage)
    (h : pkgs.find? (isCandidate docName) = none) :
    repoFromSpdxLoop env docName pkgs = .error "not found: repo uri" := by
  induction pkgs with
  | nil => rfl
  | cons pkg rest ih =>
    by_cases hc : isCandidate docName pkg
    · rw [List.find?_cons_of_pos _ hc] at h
      exact absurd h (by simp)
    · rw [List.find?_cons_of_neg _ (by simpa using hc)] at h
      by_cases hname : pkg.PackageName = docName
      · have hnone : findPM pkg.PackageExternalReferences = none := by
          rcases hfm : findPM pkg.PackageExternalReferences with _ | r2
          · rfl
          · exact absurd (by simp [isCandidate, hname, hfm]) hc
        simp only [repoFromSpdxLoop, if_pos hname, hnone]
        exact ih h
      · simp only [repoFromSpdxLoop, if_neg hname]
        exact ih h

/-- C6 amended: the package collection is a Go map whose iteration order
is randomized, so no document-order selection among packages exists. What
holds for every enumeration order the map may produce is: the loop run on
that enumeration resolves through its first package that both matches the
document name and has at least one `PACKAGE-MANAGER` external reference —
matching packages without one are skipped and later candidate packages are
then considered, and which candidate wins when several exist depends on
the enumeration — and within the selected package the first
`PACKAGE-MANAGER` reference in reference-list order (a genuinely ordered
slice) wins. -/
theorem repoFromSpdx_candidate_spec (env : Env) (doc : SpdxDocument)
    (enum : List SpdxPackage) (_hperm : doc.Packages.Perm enum)
    (p : SpdxPackage) (ref : PackageExternalReference)
    (h1 : enum.find? (isCandidate doc.CreationInfo.DocumentName) = some p)
    (h2 : findPM p.PackageExternalReferences = some ref) :
    repoFromSpdxLoop env doc.CreationInfo.DocumentName enum = repoFromPurl env ref.Locator ∧
    some ref = (p.PackageExternalReferences.filter
      (fun r => decide (r.Category = "PACKAGE-MANAGER"))).head? := by
  constructor
  · exact repoFromSpdxLoop_of_find env _ _ p ref h1 h2
  · rw [← findPM_eq_head_filter, h2]

/-- C6 amended witness: concrete evaluation on an enumeration of
`docTwo`'s package map that differs from the stored one: the matching
package without a PACKAGE-MANAGER reference is skipped and the candidate
package is selected. -/
theorem repoFromSpdx_candidate_spec_witness :
    repoFromSpdxLoop envW docTwo.CreationInfo.DocumentName [pkgLater, pkgNoRef] =
      repoFromPurl envW refL2.Locator ∧
    some refL2 = (pkgLater.PackageExternalReferences.filter
      (fun r => decide (r.Category = "PACKAGE-MANAGER"))).head? :=
  repoFromSpdx_candidate_spec envW docTwo [pkgLater, pkgNoRef]
    (List.Perm.swap pkgLater pkgNoRef []) pkgLater refL2 (by decide) rfl

/-- C7 counterexample: a document with no name-matching package and a
document whose matching package lacks a PACKAGE-MANAGER reference fail
with the identical error value, message "not found: repo uri" — the two
failure causes are not distinguishable by the caller. -/
theorem repoFromSpdx_error_indistinct_cex :
    repoFromSpdx envW docNoMatch = .error "not found: repo uri" ∧
    repoFromSpdx envW docFirstOnly = .error "not found: repo uri" ∧
    docNoMatch.Packages.filter
      (fun q => decide (q.PackageName = docNoMatch.CreationInfo.DocumentName)) = [] ∧
    docFirstOnly.Packages.filter
      (fun q => decide (q.PackageName = docFirstOnly.CreationInfo.DocumentName)) = [pkgNoRef] :=
  ⟨rfl, rfl, by decide, by decide⟩

/-- C7 amended: both failure causes — no package name matching the
document name, or matching packages all lacking a `PACKAGE-MANAGER`
reference — produce the one and the same error, message
"not found: repo uri"; the code does not distinguish them. -/
theorem repoFromSpdx_single_error_spec (env : Env) (doc : SpdxDocument)
    (h : doc.Packages.find? (isCandidate doc.CreationInfo.DocumentName) = none) :
    repoFromSpdx env doc = .error "not found: repo uri" :=
  repoFromSpdxLoop_of_find_none env _ _ h

/-- C7 amended witness: concrete evaluation on a document with no matching
package. -/
theorem repoFromSpdx_single_error_spec_witness :
    repoFromSpdx envW docNoMatch = .error "not found: repo uri" :=
  repoFromSpdx_single_error_spec envW docNoMatch (by decide)

/-- A referrer whose SBOM byte sequence is empty. -/
def rEmpty : referrer :=
  { annotations := [], mediaType := mediaKeyCycloneDX, bytes := []
    targetRepo := ndW, targetDesc := descW }

/-- C8 counterexample: building the artifact from empty SBOM bytes does
not fail — the builder has no emptiness check and returns a manifest whose
single layer has empty content. -/
theorem image_empty_bytes_cex :
    rEmpty.bytes = [] ∧
    referrer.Image rEmpty = .ok
      { mediaType := descW.mediaType, configMediaType := mediaKeyCycloneDX
        layers := [staticNewLayer [] ociUncompressedLayer]
        annotations := [], subject := some descW } :=
  ⟨rfl, rfl⟩

/-- C8 amended: building with empty SBOM layer bytes succeeds and produces
a complete manifest whose single layer is empty; no error is raised. -/
theorem image_empty_bytes_ok_spec (r : referrer) (h : r.bytes = []) :
    ∃ img, referrer.Image r = .ok img ∧
      img.layers = [staticNewLayer [] ociUncompressedLayer] := by
  refine ⟨_, referrer_Image_eq r, ?_⟩
  rw [h]

/-- C8 amended witness: concrete evaluation at the empty byte sequence. -/
theorem image_empty_bytes_ok_spec_witness :
    ∃ img, referrer.Image rEmpty = .ok img ∧
      img.layers = [staticNewLayer [] ociUncompressedLayer] :=
  image_empty_bytes_ok_spec rEmpty rfl

/-- C9: every stage failure short-circuits `putReferrer` with that exact
error and an empty push trace — the external push is invoked only after
read, format detection, decoding, resolution, descriptor lookup, build and
tag derivation have all succeeded, and a push failure is itself propagated
verbatim. -/
theorem putReferrer_atomic_spec (env : Env) (rb : Except String Bytes) :
    (∀ e, rb = .error e → putReferrer env rb = (.error e, [])) ∧
    (∀ b e, rb = .ok b → env.detectFormat b = .error e →
      putReferrer env rb = (.error e, [])) ∧
    (∀ b fmt e, rb = .ok b → env.detectFormat b = .ok fmt →
      env.decode b fmt = .error e → putReferrer env rb = (.error e, [])) ∧
    (∀ e, referrerFromSBOM env rb = .error e →
      putReferrer env rb = (.error e, [])) ∧
    (∀ r e, referrerFromSBOM env rb = .ok r → referrer.Image r = .error e →
      putReferrer env rb = (.error e, [])) ∧
    (∀ r img e, referrerFromSBOM env rb = .ok r → referrer.Image r = .ok img →
      referrer.Tag env r img = .error e → putReferrer env rb = (.error e, [])) ∧
    (∀ r img tag e, referrerFromSBOM env rb = .ok r → referrer.Image r = .ok img →
      referrer.Tag env r img = .ok tag → env.remoteWrite tag img = .error e →
      putReferrer env rb = (.error e, [(tag, img)])) := by
  refine ⟨?_, ?_, ?_, ?_, ?_, ?_, ?_⟩
  · intro e h
    subst h
    rfl
  · intro b e hb hd
    subst hb
    have href : referrerFromSBOM env (.ok b) = .error e := by
      simp [referrerFromSBOM, hd]
    simp [putReferrer, href]
  · intro b fmt e hb hd hdec
    subst hb
    have href : referrerFromSBOM env (.ok b) = .error e := by
      cases fmt <;> simp [referrerFromSBOM, hd, hdec]
    simp [putReferrer, href]
  · intro e h
    simp [putReferrer, h]
  · intro r e h1 h2
    simp [putReferrer, h1, h2]
  · intro r img e h1 h2 h3
    simp [putReferrer, h1, h2, h3]
  · intro r img tag e h1 h2 h3 h4
    simp [putReferrer, h1, h2, h3, h4]

/-- C9 witness: a read failure propagates with an empty push trace. -/
theorem putReferrer_atomic_spec_witness :
    putReferrer envW (.error "read failed") = (.error "read failed", []) :=
  (putReferrer_atomic_spec envW (.error "read failed")).1 "read failed" rfl

/-- C10: the exact wire-contract constants: the description annotation
key, the two dialect media types and the two dialect description strings;
for each dialect the assembled annotations hold exactly that one
key-value pair. -/
theorem wire_constants_spec :
    annotationKeyDescription = "org.opencontainers.artifact.description" ∧
    mediaKeyCycloneDX = "application/vnd.cyclonedx+json" ∧
    mediaKeySPDX = "application/spdx+json" ∧
    (∀ (env : Env) (b : Bytes) (r : referrer),
      env.detectFormat b = .ok .formatCycloneDXJSON →
      referrerFromSBOM env (.ok b) = .ok r →
      r.annotations = [(annotationKeyDescription, "CycloneDX JSON SBOM")] ∧
      r.mediaType = mediaKeyCycloneDX) ∧
    (∀ (env : Env) (b : Bytes) (r : referrer),
      env.detectFormat b = .ok .formatSPDXJSON →
      referrerFromSBOM env (.ok b) = .ok r →
      r.annotations = [(annotationKeyDescription, "SPDX JSON SBOM")] ∧
      r.mediaType = mediaKeySPDX) := by
  refine ⟨rfl, rfl, rfl, ?_, ?_⟩
  · intro env b r hdf hr
    rcases (referrerFromSBOM_ok_inv env b r hr).2.2 with ⟨_, ha, hm⟩ | ⟨hdf2, _, _⟩
    · exact ⟨ha, hm⟩
    · rw [hdf] at hdf2
      exact absurd hdf2 (by simp)
  · intro env b r hdf hr
    rcases (referrerFromSBOM_ok_inv env b r hr).2.2 with ⟨hdf2, _, _⟩ | ⟨_, ha, hm⟩
    · rw [hdf] at hdf2
      exact absurd hdf2 (by simp)
    · exact ⟨ha, hm⟩

/-- C10 witness: concrete evaluation of the CycloneDX branch constants. -/
theorem wire_constants_spec_witness :
    rW.annotations = [(annotationKeyDescription, "CycloneDX JSON SBOM")] ∧
    rW.mediaType = mediaKeyCycloneDX :=
  wire_constants_spec.2.2.2.1 envW [7] rW rfl rfl

end PushReferrer
